import Mathlib

/-!
Shallow embedding of the Solana counter program (`src/lib.rs`).

Machine integers (`u32`) are modelled as `Nat`, reduced modulo `2^32`
exactly where the Rust code wraps. Byte buffers (the instruction buffer
and the persisted account data) are `List Nat`, each entry one byte.
Fallible steps return `Except ProgramError`; an invocation of the entry
point returns its outcome together with the account buffers after the
call, so that mutation (or its absence) is visible in the result.
-/

/-- The modulus of the fixed-width unsigned 32-bit representation. -/
def U32_MOD : Nat := 4294967296

/-- Errors surfaced by a single invocation: decode failures from
`CounterInstructions::unpack`, the borsh state-codec failures, and the
missing-account failure of `next_account_info`. -/
inductive ProgramError where
  | UnknownOpcode : ProgramError
  | TruncatedPayload : ProgramError
  | StateDeserializationError : ProgramError
  | StateSerializationError : ProgramError
  | NotEnoughAccountKeys : ProgramError
deriving DecidableEq

/-- The closed instruction set of the program (`CounterInstructions` in the
`instructions` module): one variant per opcode, three of them carrying a
`u32` operand. -/
inductive CounterInstructions where
  | Increment : Nat → CounterInstructions
  | Decrement : Nat → CounterInstructions
  | Update : Nat → CounterInstructions
  | Reset : CounterInstructions
deriving DecidableEq

/-- Persisted state of the program: `struct CounterAccount { counter: u32 }`
(`lib.rs` lines 14-17). -/
structure CounterAccount where
  counter : Nat
deriving DecidableEq

/-- The `u32` operand carried by an instruction (`0` for `Reset`, which has
none). -/
def CounterInstructions.operand : CounterInstructions → Nat
  | .Increment v => v
  | .Decrement v => v
  | .Update v => v
  | .Reset => 0

/-- Little-endian value of four bytes, as read by `u32::from_le_bytes`. -/
def leU32 (b0 b1 b2 b3 : Nat) : Nat :=
  b0 + 256 * b1 + 65536 * b2 + 16777216 * b3

/-- Little-endian four-byte encoding of a `u32`, as produced by
`u32::to_le_bytes` and by the borsh serializer for a `u32` field. -/
def u32ToLeBytes (v : Nat) : List Nat :=
  [v % 256, v / 256 % 256, v / 65536 % 256, v / 16777216 % 256]

/-- Modelled from the spec: `CounterInstructions::unpack` lives in the
`instructions` module, which `lib.rs` declares (`pub mod instructions;`,
line 12) but whose source file is not part of the snapshot. Following the
spec: byte 0 is the opcode selector (0=Increment, 1=Decrement, 2=Update,
3=Reset; any other value fails with `UnknownOpcode`); for opcodes 0, 1, 2
bytes 1..5 are the little-endian `u32` operand, and fewer than 5 bytes
fail with `TruncatedPayload`; for opcode 3 no operand bytes are read and
trailing bytes are ignored. An empty buffer has no opcode byte and is
treated as a truncated payload. -/
def CounterInstructions.unpack (input : List Nat) :
    Except ProgramError CounterInstructions :=
  match input with
  | [] => .error .TruncatedPayload
  | tag :: rest =>
    if tag = 3 then .ok .Reset
    else if tag = 0 ∨ tag = 1 ∨ tag = 2 then
      match rest with
      | b0 :: b1 :: b2 :: b3 :: _ =>
        let v := leU32 b0 b1 b2 b3
        if tag = 0 then .ok (.Increment v)
        else if tag = 1 then .ok (.Decrement v)
        else .ok (.Update v)
      | _ => .error .TruncatedPayload
    else .error .UnknownOpcode

/-- Deserialization of the persisted state,
`CounterAccount::try_from_slice(&account.data.borrow())` (`lib.rs` line
33). Borsh first reads the fixed four-byte little-endian `u32` and then
requires the entire input to have been consumed, so any buffer whose
length differs from four fails. -/
def CounterAccount.try_from_slice (data : List Nat) :
    Except ProgramError CounterAccount :=
  match data with
  | [b0, b1, b2, b3] => .ok ⟨leU32 b0 b1 b2 b3⟩
  | _ => .error .StateDeserializationError

/-- Serialization of the new state back into the account buffer,
`counter_account.serialize(&mut &mut account.data.borrow_mut()[..])`
(`lib.rs` line 55). The borsh slice writer overwrites the first four bytes
of the buffer and leaves any remaining bytes in place; when the buffer is
shorter than four bytes it copies as many bytes as fit and then fails.
The result is the outcome paired with the buffer contents after the call. -/
def CounterAccount.serialize (a : CounterAccount) (buf : List Nat) :
    Except ProgramError Unit × List Nat :=
  let bytes := u32ToLeBytes a.counter
  if buf.length < 4 then
    (.error .StateSerializationError, bytes.take buf.length)
  else
    (.ok (), bytes ++ buf.drop 4)

/-- The state transition of `process_instruction` (the `match instruction`
block, `lib.rs` lines 35-53): `Increment` adds with `u32` wraparound,
`Decrement` clamps to zero when the operand exceeds the counter,
`Reset` writes zero, `Update` overwrites with the operand. -/
def applyInstruction (counter : Nat) (instruction : CounterInstructions) : Nat :=
  match instruction with
  | .Increment v => (counter + v) % U32_MOD
  | .Decrement v => if v > counter then 0 else counter - v
  | .Reset => 0
  | .Update v => v

/-- One invocation of the entry point `process_instruction` (`lib.rs`
lines 21-57): decode the instruction buffer, take the first account,
parse its data as a `CounterAccount`, apply the transition, and serialize
the new state back into the same account buffer. The result is the
invocation outcome paired with the account buffers after the call; the
first account buffer is the persisted-state buffer and is touched only by
the final `serialize`. -/
def process_instruction (accounts : List (List Nat))
    (instructions_data : List Nat) :
    Except ProgramError Unit × List (List Nat) :=
  match CounterInstructions.unpack instructions_data with
  | .error e => (.error e, accounts)
  | .ok instruction =>
    match accounts with
    | [] => (.error .NotEnoughAccountKeys, accounts)
    | data :: restAccounts =>
      match CounterAccount.try_from_slice data with
      | .error e => (.error e, data :: restAccounts)
      | .ok counter_account =>
        let next : CounterAccount :=
          ⟨applyInstruction counter_account.counter instruction⟩
        match CounterAccount.serialize next data with
        | (.error e, data2) => (.error e, data2 :: restAccounts)
        | (.ok _, data2) => (.ok (), data2 :: restAccounts)

/-- A successful state deserialization consumes the whole buffer, so the
buffer had exactly the four bytes of the fixed layout. -/
lemma length_eq_four_of_try_from_slice_ok {data : List Nat}
    {a : CounterAccount}
    (h : CounterAccount.try_from_slice data = Except.ok a) :
    data.length = 4 := by
  rcases data with _ | ⟨b0, _ | ⟨b1, _ | ⟨b2, _ | ⟨b3, _ | ⟨b4, t⟩⟩⟩⟩⟩ <;>
    simp [CounterAccount.try_from_slice] at h <;> rfl

/-- C1: for every current counter value `c` and every operand `v` (both
`u32`), applying `Increment(v)` yields `(c + v) mod 2^32`: the addition
wraps on overflow instead of failing or promoting to a wider type. -/
theorem C1_increment_wraps (c v : Nat) (hc : c < U32_MOD) (hv : v < U32_MOD) :
    applyInstruction c (CounterInstructions.Increment v) = (c + v) % U32_MOD :=
  rfl

theorem C1_increment_wraps_witness :
    applyInstruction 4294967295 (CounterInstructions.Increment 2) =
      (4294967295 + 2) % U32_MOD :=
  C1_increment_wraps 4294967295 2 (by decide) (by decide)

/-- C3: for every current counter value `c` and every operand `v` (both
`u32`), applying `Decrement(v)` yields `0` when `v > c` (clamp-to-zero,
not wraparound and not an error) and `c - v` otherwise. -/
theorem C3_decrement_clamps (c v : Nat) (hc : c < U32_MOD) (hv : v < U32_MOD) :
    applyInstruction c (CounterInstructions.Decrement v) =
      if v > c then 0 else c - v :=
  rfl

theorem C3_decrement_clamps_witness :
    applyInstruction 32 (CounterInstructions.Decrement 100) =
      if 100 > 32 then 0 else 32 - 100 :=
  C3_decrement_clamps 32 100 (by decide) (by decide)

/-- C9: for every current counter value `c` and every operand `v` (both
`u32`), applying `Update(v)` yields `v`, unconditionally and regardless of
the current value. -/
theorem C9_update_overwrites (c v : Nat) (hc : c < U32_MOD) (hv : v < U32_MOD) :
    applyInstruction c (CounterInstructions.Update v) = v :=
  rfl

theorem C9_update_overwrites_witness :
    applyInstruction 48 (CounterInstructions.Update 33) = 33 :=
  C9_update_overwrites 48 33 (by decide) (by decide)

/-- C10: for every current counter value `c` (`u32`), applying `Reset`
yields `0`, unconditionally. -/
theorem C10_reset_zeroes (c : Nat) (hc : c < U32_MOD) :
    applyInstruction c CounterInstructions.Reset = 0 :=
  rfl

theorem C10_reset_zeroes_witness :
    applyInstruction 48 CounterInstructions.Reset = 0 :=
  C10_reset_zeroes 48 (by decide)

/-- C7: for every reachable counter value and every decoded instruction
(`Increment`, `Decrement`, `Reset`, or `Update` with any `u32` operand),
the counter produced by the transition lies in `[0, 2^32 - 1]`. -/
theorem C7_counter_in_range (c : Nat) (i : CounterInstructions)
    (hc : c < U32_MOD) (hv : i.operand < U32_MOD) :
    applyInstruction c i < U32_MOD := by
  cases i with
  | Increment v => exact Nat.mod_lt _ (by decide)
  | Decrement v =>
    simp only [applyInstruction]
    split
    · decide
    · exact lt_of_le_of_lt (Nat.sub_le c v) hc
  | Reset => exact (by decide : (0 : Nat) < U32_MOD)
  | Update v => exact hv

theorem C7_counter_in_range_witness :
    applyInstruction 5 (CounterInstructions.Decrement 7) < U32_MOD :=
  C7_counter_in_range 5 (CounterInstructions.Decrement 7) (by decide) (by decide)

/-- C8: for every representable counter value (all of `u32`), serializing a
`CounterAccount` to its four-byte little-endian wire form and then
deserializing it yields the original value. -/
theorem C8_state_roundtrip (c : Nat) (buf : List Nat)
    (hc : c < U32_MOD) (hb : buf.length = 4) :
    (CounterAccount.serialize ⟨c⟩ buf).2 = u32ToLeBytes c ∧
    CounterAccount.try_from_slice
        ((CounterAccount.serialize ⟨c⟩ buf).2) =
      Except.ok ⟨c⟩ := by
  have hdrop : buf.drop 4 = [] := List.drop_eq_nil_of_le (le_of_eq hb)
  have hlt : ¬ buf.length < 4 := by omega
  have h2 : (CounterAccount.serialize ⟨c⟩ buf).2 = u32ToLeBytes c := by
    simp [CounterAccount.serialize, hlt, hdrop]
  refine ⟨h2, ?_⟩
  rw [h2]
  have hc2 : c < 4294967296 := hc
  have hle : leU32 (c % 256) (c / 256 % 256) (c / 65536 % 256)
      (c / 16777216 % 256) = c := by
    simp only [leU32]
    omega
  simp [u32ToLeBytes, CounterAccount.try_from_slice, hle]

theorem C8_state_roundtrip_witness :
    (CounterAccount.serialize ⟨48⟩ [0, 0, 0, 0]).2 = u32ToLeBytes 48 ∧
    CounterAccount.try_from_slice
        ((CounterAccount.serialize ⟨48⟩ [0, 0, 0, 0]).2) =
      Except.ok ⟨48⟩ :=
  C8_state_roundtrip 48 [0, 0, 0, 0] (by decide) (by decide)

/-- C2 counterexample: a five-byte persisted-state buffer has size at least
four bytes, yet reading the current state fails with a
state-deserialization error (borsh `try_from_slice` rejects unconsumed
trailing bytes), and the otherwise valid `Reset` invocation aborts. -/
theorem C2_counterexample :
    CounterAccount.try_from_slice [0, 0, 0, 0, 0] =
      Except.error ProgramError.StateDeserializationError ∧
    (process_instruction [[0, 0, 0, 0, 0]] [3]).1 =
      Except.error ProgramError.StateDeserializationError :=
  ⟨rfl, rfl⟩

/-- C2 (amended): for every persisted-state buffer of size exactly four
bytes, reading the current state at the start of an invocation does not
fail with a state-deserialization error, and a valid instruction
completes; buffers longer than four bytes are rejected by the borsh
full-consumption check. -/
theorem C2_exact_four_bytes (buf : List Nat) (h : buf.length = 4) :
    (∃ a, CounterAccount.try_from_slice buf = Except.ok a) ∧
    (process_instruction [buf] [3]).1 = Except.ok () := by
  rcases buf with _ | ⟨b0, _ | ⟨b1, _ | ⟨b2, _ | ⟨b3, rest⟩⟩⟩⟩ <;> simp at h
  obtain rfl : rest = [] := h
  exact ⟨⟨⟨leU32 b0 b1 b2 b3⟩, rfl⟩, rfl⟩

theorem C2_exact_four_bytes_witness :
    (∃ a, CounterAccount.try_from_slice [7, 0, 0, 0] = Except.ok a) ∧
    (process_instruction [[7, 0, 0, 0]] [3]).1 = Except.ok () :=
  C2_exact_four_bytes [7, 0, 0, 0] (by decide)

/-- C5: for every input buffer, decode inspects byte 0 as the opcode:
a successful decode with byte 0 equal to 0, 1, 2, 3 yields respectively an
`Increment`, `Decrement`, `Update`, `Reset` instruction (with opcode 3
always succeeding as `Reset`), and any other value of byte 0 fails with
`UnknownOpcode`. -/
theorem C5_opcode_dispatch (tag : Nat) (rest : List Nat) :
    (∀ i, CounterInstructions.unpack (tag :: rest) = Except.ok i →
        (tag = 0 ∧ ∃ v, i = CounterInstructions.Increment v) ∨
        (tag = 1 ∧ ∃ v, i = CounterInstructions.Decrement v) ∨
        (tag = 2 ∧ ∃ v, i = CounterInstructions.Update v) ∨
        (tag = 3 ∧ i = CounterInstructions.Reset)) ∧
    (tag = 3 → CounterInstructions.unpack (tag :: rest) =
        Except.ok CounterInstructions.Reset) ∧
    (tag ≠ 0 → tag ≠ 1 → tag ≠ 2 → tag ≠ 3 →
        CounterInstructions.unpack (tag :: rest) =
          Except.error ProgramError.UnknownOpcode) := by
  refine ⟨?_, ?_, ?_⟩
  · intro i hi
    simp only [CounterInstructions.unpack] at hi
    by_cases h3 : tag = 3
    · simp only [h3, if_pos rfl] at hi
      exact Or.inr (Or.inr (Or.inr ⟨h3, (Except.ok.inj hi).symm⟩))
    · rw [if_neg h3] at hi
      by_cases h012 : tag = 0 ∨ tag = 1 ∨ tag = 2
      · rw [if_pos h012] at hi
        rcases rest with _ | ⟨b0, _ | ⟨b1, _ | ⟨b2, _ | ⟨b3, extra⟩⟩⟩⟩
        · simp at hi
        · simp at hi
        · simp at hi
        · simp at hi
        rcases h012 with h0 | h1 | h2
        · subst h0
          simp at hi
          subst hi
          exact Or.inl ⟨rfl, _, rfl⟩
        · subst h1
          simp at hi
          subst hi
          exact Or.inr (Or.inl ⟨rfl, _, rfl⟩)
        · subst h2
          simp at hi
          subst hi
          exact Or.inr (Or.inr (Or.inl ⟨rfl, _, rfl⟩))
      · rw [if_neg h012] at hi
        exact absurd hi (by simp)
  · intro h3
    simp [CounterInstructions.unpack, h3]
  · intro h0 h1 h2 h3
    have h012 : ¬(tag = 0 ∨ tag = 1 ∨ tag = 2) := by
      intro h
      rcases h with h | h | h <;> omega
    simp [CounterInstructions.unpack, h3, h012]

theorem C5_opcode_dispatch_witness :
    CounterInstructions.unpack [9] = Except.error ProgramError.UnknownOpcode :=
  (C5_opcode_dispatch 9 []).2.2 (by decide) (by decide) (by decide) (by decide)

/-- C6: for every input buffer whose byte 0 is 0, 1, or 2, decode reads
bytes 1..5 as a little-endian unsigned 32-bit operand and fails with
`TruncatedPayload` when fewer than five bytes are present; for opcode 3
(`Reset`) no operand bytes are read and trailing bytes are ignored rather
than rejected. -/
theorem C6_operand_decoding (rest : List Nat) :
    (∀ tag, tag < 3 → rest.length < 4 →
        CounterInstructions.unpack (tag :: rest) =
          Except.error ProgramError.TruncatedPayload) ∧
    (∀ b0 b1 b2 b3 extra,
        CounterInstructions.unpack (0 :: b0 :: b1 :: b2 :: b3 :: extra) =
            Except.ok (CounterInstructions.Increment (leU32 b0 b1 b2 b3)) ∧
        CounterInstructions.unpack (1 :: b0 :: b1 :: b2 :: b3 :: extra) =
            Except.ok (CounterInstructions.Decrement (leU32 b0 b1 b2 b3)) ∧
        CounterInstructions.unpack (2 :: b0 :: b1 :: b2 :: b3 :: extra) =
            Except.ok (CounterInstructions.Update (leU32 b0 b1 b2 b3))) ∧
    CounterInstructions.unpack (3 :: rest) = Except.ok CounterInstructions.Reset := by
  refine ⟨?_, ?_, rfl⟩
  · intro tag htag hlen
    interval_cases tag <;>
      rcases rest with _ | ⟨b0, _ | ⟨b1, _ | ⟨b2, _ | ⟨b3, extra⟩⟩⟩⟩ <;>
      first
        | rfl
        | (exfalso; simp only [List.length_cons] at hlen; omega)
  · intro b0 b1 b2 b3 extra
    exact ⟨rfl, rfl, rfl⟩

theorem C6_operand_decoding_witness :
    CounterInstructions.unpack [1, 48] = Except.error ProgramError.TruncatedPayload :=
  (C6_operand_decoding [48]).1 1 (by decide) (by decide)

/-- C4: whenever an invocation fails with any error, the persisted-state
buffers are left exactly as they were (no partial application of an
instruction); in particular the instruction buffer `[0x09]` fails with
`UnknownOpcode` and mutates no state. -/
theorem C4_no_mutation_on_error (accounts : List (List Nat))
    (instructions_data : List Nat) :
    (∀ e, (process_instruction accounts instructions_data).1 = Except.error e →
        (process_instruction accounts instructions_data).2 = accounts) ∧
    (process_instruction accounts [9]).1 = Except.error ProgramError.UnknownOpcode ∧
    (process_instruction accounts [9]).2 = accounts := by
  refine ⟨?_, rfl, rfl⟩
  intro e he
  simp only [process_instruction] at he ⊢
  cases hu : CounterInstructions.unpack instructions_data with
  | error e2 => simp [hu]
  | ok instruction =>
    simp only [hu] at he ⊢
    cases accounts with
    | nil => rfl
    | cons data restAccounts =>
      cases hd : CounterAccount.try_from_slice data with
      | error e2 => simp [hd]
      | ok counter_account =>
        simp only [hd] at he
        have hlen : data.length = 4 := length_eq_four_of_try_from_slice_ok hd
        have hlt : ¬ data.length < 4 := by omega
        simp [CounterAccount.serialize, hlt] at he

theorem C4_no_mutation_on_error_witness :
    (process_instruction [[0, 0, 0, 0, 0]] [3]).2 = [[0, 0, 0, 0, 0]] ∧
    (process_instruction [[5, 0, 0, 0]] [9]).1 =
      Except.error ProgramError.UnknownOpcode ∧
    (process_instruction [[5, 0, 0, 0]] [9]).2 = [[5, 0, 0, 0]] :=
  ⟨(C4_no_mutation_on_error [[0, 0, 0, 0, 0]] [3]).1
      ProgramError.StateDeserializationError rfl,
    (C4_no_mutation_on_error [[5, 0, 0, 0]] [9]).2⟩
